import Mathlib

/-!
Verification of the interaction/state core of the `image_editor` repository
(`pouryare/image_editor`): edit buffers, bounded undo/redo history, viewport
layout, canvas/image coordinate mapping, and the crop / draw / text tool
handlers.

The Python source is shallowly embedded: each relevant method becomes a pure
Lean function on an explicit `EditorState` record.  Python `int()` conversion
of a float is modelled as truncation toward zero on exact rationals; OpenCV
raster primitives (`cv2.line`, `cv2.putText`) are external collaborators, so
the embedding records the exact argument values the code passes to them
(`LineSpec`, `TextSpec`) rather than their pixel effect.
-/

namespace ImageEditor

/-- Python `int(q)` on a real number: truncation toward zero
(floor for nonnegative values, ceiling for negative ones). -/
def pyInt (q : ℚ) : ℤ :=
  if 0 ≤ q then ⌊q⌋ else ⌈q⌉

/-- Python slice `l[:stop]` for an integer `stop` (negative `stop` counts
from the end, as in Python). -/
def pySliceTo {α : Type} (l : List α) (stop : ℤ) : List α :=
  if 0 ≤ stop then l.take stop.toNat else l.take (l.length - (-stop).toNat)

/-- A BGR pixel as stored in the OpenCV arrays. -/
abbrev Pixel := Nat × Nat × Nat

/-- An OpenCV image: a 2-D grid of pixels with explicit dimensions
(`numpy` array of shape `height × width × 3`). -/
structure Image where
  height : Nat
  width : Nat
  pixels : List (List Pixel)
deriving DecidableEq, Repr

/-- `numpy` slicing `img[y0:y1, x0:x1]` for already-clamped nonnegative
bounds (`0 ≤ y0, y1 ≤ height`, `0 ≤ x0, x1 ≤ width`): an empty result when
the interval is reversed. -/
def Image.cropRect (img : Image) (y0 y1 x0 x1 : Nat) : Image :=
  { height := y1 - y0
    width := x1 - x0
    pixels := ((img.pixels.drop y0).take (y1 - y0)).map
      (fun row => (row.drop x0).take (x1 - x0)) }

/-- The record of one `cv2.line` call made by `DrawingTools.draw`
(src/drawing_tools.py lines 181-190): both endpoints in image space, the
BGR color and the thickness passed to OpenCV. -/
structure LineSpec where
  p1 : ℤ × ℤ
  p2 : ℤ × ℤ
  color : Pixel
  thickness : ℤ
deriving DecidableEq, Repr

/-- The record of one `cv2.putText` call made by
`TextTools.start_text_placement` (src/text_tools.py lines 217-225). -/
structure TextSpec where
  text : String
  org : ℤ × ℤ
  fontScale : ℚ
  color : Pixel
  thickness : ℤ
deriving DecidableEq, Repr

/-- The mutable state of the `ImageEditor` instance together with the
fields of `ActionHandlers`, `CropTools` and `DrawingTools` that live on it
(src/image_editor.py lines 74-112, src/action_handlers.py lines 58-61). -/
structure EditorState where
  original_image : Option Image
  edited_image : Option Image
  filtered_image : Option Image
  ratio : ℚ
  x_offset : ℤ
  y_offset : ℤ
  x : ℤ
  y : ℤ
  draw_ids : List (ℤ × ℤ × ℤ × ℤ)
  text_extracted : String
  color_code : Pixel × String
  rectangle_id : ℤ
  crop_start_x : ℤ
  crop_start_y : ℤ
  crop_end_x : ℤ
  crop_end_y : ℤ
  active_filters : List (String × Bool)
  history : List Image
  history_position : ℤ
deriving DecidableEq

/-- `ImageUtils.default_width` (src/image_utils.py line 62). -/
def default_width : Nat := 900

/-- `ImageUtils.default_height` (src/image_utils.py line 63). -/
def default_height : Nat := 700

/-- `ImageUtils.padding` (src/image_utils.py line 64). -/
def padding : Nat := 100

/-- `ActionHandlers.max_history` (src/action_handlers.py line 61). -/
def max_history : Nat := 10

/-- `ImageUtils._calculate_display_dimensions` (src/image_utils.py lines
165-197): scales `(width, height)` to fit the display budget, preserving
aspect ratio, with Python float division modelled exactly on `ℚ`. -/
def calculateDisplayDimensions (width height : Nat) : Nat × Nat :=
  let ratio : ℚ := (height : ℚ) / (width : ℚ)
  let max_width : Nat := default_width - padding
  let max_height : Nat := default_height - padding
  if height > max_height ∨ width > max_width then
    if ratio < 1 then
      let new_width := max_width
      (new_width, (pyInt ((new_width : ℚ) * ratio)).toNat)
    else
      let new_height := max_height
      ((pyInt ((new_height : ℚ) * ((width : ℚ) / (height : ℚ)))).toNat, new_height)
  else
    (width, height)

/-- `ImageUtils.display_image` on a concrete image (src/image_utils.py lines
66-149), restricted to its effect on the editor state: it recomputes
`editor.ratio`, `editor.x_offset` and `editor.y_offset`.  A zero-sized image
makes `cv2.cvtColor` raise before any of those assignments, and a zero
computed display height makes the `ratio` division raise; both exceptions
are caught inside `display_image`, leaving the state unchanged. -/
def displayImage (s : EditorState) (img : Image) : EditorState :=
  if img.height = 0 ∨ img.width = 0 then s
  else if (calculateDisplayDimensions img.width img.height).2 = 0 then s
  else
    let new_width := (calculateDisplayDimensions img.width img.height).1
    let new_height := (calculateDisplayDimensions img.width img.height).2
    let canvas_width := max (new_width + padding) default_width
    let canvas_height := max (new_height + padding) default_height
    let x_center := canvas_width / 2
    let y_center := canvas_height / 2
    { s with
        ratio := (img.height : ℚ) / (new_height : ℚ)
        x_offset := (x_center : ℤ) - (new_width / 2 : Nat)
        y_offset := (y_center : ℤ) - (new_height / 2 : Nat) }

/-- `ImageEditor.display_image` with an optional argument: `None` falls back
to `edited_image`, and a missing `edited_image` raises inside the handler's
`try`, leaving the state unchanged. -/
def displayImageOpt (s : EditorState) (img : Option Image) : EditorState :=
  match img with
  | some i => displayImage s i
  | none =>
    match s.edited_image with
    | some i => displayImage s i
    | none => s

/-- `ImageUtils.get_canvas_coordinates` (src/image_utils.py lines 286-301):
image space to canvas space. -/
def get_canvas_coordinates (s : EditorState) (image_x image_y : ℤ) : ℤ × ℤ :=
  (pyInt ((image_x : ℚ) / s.ratio) + s.x_offset,
   pyInt ((image_y : ℚ) / s.ratio) + s.y_offset)

/-- `ImageUtils.get_image_coordinates` (src/image_utils.py lines 303-318):
canvas space to image space. -/
def get_image_coordinates (s : EditorState) (canvas_x canvas_y : ℤ) : ℤ × ℤ :=
  (pyInt (((canvas_x : ℚ) - (s.x_offset : ℚ)) * s.ratio),
   pyInt (((canvas_y : ℚ) - (s.y_offset : ℚ)) * s.ratio))

/-- `ActionHandlers.clear_history` (src/action_handlers.py lines 266-276). -/
def clear_history (s : EditorState) : EditorState :=
  { s with history := [], history_position := -1 }

/-- The history-information record returned by
`ActionHandlers.get_history_info` (src/action_handlers.py lines 278-295). -/
structure HistoryInfo where
  position : ℤ
  total_states : Nat
  can_undo : Bool
  can_redo : Bool
deriving DecidableEq, Repr

/-- `ActionHandlers.get_history_info` (src/action_handlers.py lines 278-295). -/
def get_history_info (s : EditorState) : HistoryInfo :=
  { position := s.history_position
    total_states := s.history.length
    can_undo := decide (s.history_position > 0)
    can_redo := decide (s.history_position < (s.history.length : ℤ) - 1) }

/-- The body of `ActionHandlers._add_to_history` (src/action_handlers.py
lines 145-165) on the two fields it reads and writes: truncate any redo
branch, append the snapshot, advance the cursor, then evict the oldest
entry when capacity is exceeded. -/
def addToHistoryCore (history : List Image) (history_position : ℤ)
    (image : Image) : List Image × ℤ :=
  let hist :=
    if history_position < (history.length : ℤ) - 1 then
      pySliceTo history (history_position + 1)
    else history
  let hist := hist ++ [image]
  let pos := history_position + 1
  if (hist.length : ℤ) > (max_history : ℤ) then
    (hist.drop 1, pos - 1)
  else
    (hist, pos)

/-- `ActionHandlers._add_to_history` (src/action_handlers.py lines
145-165). -/
def addToHistory (s : EditorState) (image : Image) : EditorState :=
  { s with
      history := (addToHistoryCore s.history s.history_position image).1
      history_position := (addToHistoryCore s.history s.history_position image).2 }

/-- `ActionHandlers._reset_filter_states` (src/action_handlers.py lines
167-177): every toggle in `active_filters` is set to `False`. -/
def resetFilterStates (s : EditorState) : EditorState :=
  { s with active_filters := s.active_filters.map (fun p => (p.1, false)) }

/-- `ActionHandlers._reset_tool_states` (src/action_handlers.py lines
179-197). -/
def resetToolStates (s : EditorState) : EditorState :=
  { s with
      draw_ids := []
      rectangle_id := 0
      crop_start_x := 0
      crop_start_y := 0
      crop_end_x := 0
      crop_end_y := 0 }

/-- `ActionHandlers._reset_all_states` (src/action_handlers.py lines
199-214). -/
def resetAllStates (s : EditorState) : EditorState :=
  let s := resetFilterStates s
  let s := resetToolStates s
  { s with
      text_extracted := "Sample Text"
      color_code := ((255, 0, 0), "#ff0000") }

/-- `ActionHandlers.apply_changes` (src/action_handlers.py lines 63-90):
when a preview exists, commit it, refresh the display, push a snapshot onto
the history and reset the filter toggles.  No step of the guarded body can
raise (display swallows its own exceptions), so the `except` branch is
unreachable; with no preview the body is skipped. -/
def apply_changes (s : EditorState) : EditorState :=
  match s.filtered_image with
  | none => s
  | some f =>
    let s := { s with edited_image := some f }
    let s := displayImage s f
    let s := addToHistory s f
    resetFilterStates s

/-- `ActionHandlers.revert_all` (src/action_handlers.py lines 116-143):
with an original image present, restore both buffers from it, refresh the
display, clear the history and reset all tool/filter state; otherwise do
nothing. -/
def revert_all (s : EditorState) : EditorState :=
  match s.original_image with
  | none => s
  | some o =>
    let s := { s with edited_image := some o, filtered_image := some o }
    let s := displayImage s o
    let s := clear_history s
    resetAllStates s

/-- `ActionHandlers.cancel_changes` (src/action_handlers.py lines 92-114):
reset the preview to a copy of the committed image, refresh the display,
and reset tool state.  When no image is loaded, `edited_image.copy()`
raises and `_handle_action_error("cancel")` degrades to `revert_all`
(src/action_handlers.py lines 216-231). -/
def cancel_changes (s : EditorState) : EditorState :=
  match s.edited_image with
  | some e =>
    let s := { s with filtered_image := some e }
    let s := displayImage s e
    resetToolStates s
  | none => revert_all s

/-- `ActionHandlers.undo` (src/action_handlers.py lines 234-248). -/
def undo (s : EditorState) : EditorState :=
  if s.history_position > 0 then
    let pos := s.history_position - 1
    match s.history.get? pos.toNat with
    | some img =>
      displayImage
        { s with
            history_position := pos
            edited_image := some img
            filtered_image := some img } img
    | none => s
  else s

/-- `ActionHandlers.redo` (src/action_handlers.py lines 250-264). -/
def redo (s : EditorState) : EditorState :=
  if s.history_position < (s.history.length : ℤ) - 1 then
    let pos := s.history_position + 1
    match s.history.get? pos.toNat with
    | some img =>
      displayImage
        { s with
            history_position := pos
            edited_image := some img
            filtered_image := some img } img
    | none => s
  else s

/-- `FileOperations._load_image` on a successfully decoded file
(src/file_operations.py lines 175-201): set all three buffers from the
decoded image and refresh the display.  Note that it does not touch the
history fields. -/
def loadImage (s : EditorState) (image : Image) : EditorState :=
  let s :=
    { s with
        original_image := some image
        edited_image := some image
        filtered_image := some image }
  displayImage s image

/-- `CropTools.MIN_CROP_SIZE` (src/crop_tools.py line 68). -/
def MIN_CROP_SIZE : ℤ := 10

/-- `CropTools._validate_crop_size` (src/crop_tools.py lines 232-241). -/
def validate_crop_size (s : EditorState) : Bool :=
  decide (|s.crop_end_x - s.crop_start_x| ≥ MIN_CROP_SIZE) &&
  decide (|s.crop_end_y - s.crop_start_y| ≥ MIN_CROP_SIZE)

/-- `CropTools._reset_crop_state` (src/crop_tools.py lines 243-249). -/
def resetCropState (s : EditorState) : EditorState :=
  { s with
      crop_start_x := 0
      crop_start_y := 0
      crop_end_x := 0
      crop_end_y := 0
      rectangle_id := 0 }

/-- `CropTools.end_crop` (src/crop_tools.py lines 158-212): reject a
selection below the minimum size (early `return`, then only the `finally`
reset runs); otherwise normalise the canvas rectangle, map each corner to
image space with offset and scale, clamp to the image bounds, replace the
preview with that sub-rectangle of the committed image and redisplay.  When
no image is loaded, reading `edited_image.shape` raises and the `except`
branch raises again on `edited_image.copy()`, so only the `finally` reset
takes effect. -/
def end_crop (s : EditorState) : EditorState :=
  if ¬ validate_crop_size s then resetCropState s
  else
    match s.edited_image with
    | none => resetCropState s
    | some img =>
      let start_x := min s.crop_start_x s.crop_end_x
      let start_y := min s.crop_start_y s.crop_end_y
      let end_x := max s.crop_start_x s.crop_end_x
      let end_y := max s.crop_start_y s.crop_end_y
      let start_x := pyInt (((start_x : ℚ) - (s.x_offset : ℚ)) * s.ratio)
      let start_y := pyInt (((start_y : ℚ) - (s.y_offset : ℚ)) * s.ratio)
      let end_x := pyInt (((end_x : ℚ) - (s.x_offset : ℚ)) * s.ratio)
      let end_y := pyInt (((end_y : ℚ) - (s.y_offset : ℚ)) * s.ratio)
      let start_x := max 0 (min start_x (img.width : ℤ))
      let start_y := max 0 (min start_y (img.height : ℤ))
      let end_x := max 0 (min end_x (img.width : ℤ))
      let end_y := max 0 (min end_y (img.height : ℤ))
      let cropped := img.cropRect start_y.toNat end_y.toNat start_x.toNat end_x.toNat
      let s := { s with filtered_image := some cropped }
      let s := displayImage s cropped
      resetCropState s

/-- `DrawingTools.draw` (src/drawing_tools.py lines 155-194): append the
canvas feedback segment to `draw_ids`, issue a `cv2.line` call on the
preview buffer — whose arguments the embedding returns as a `LineSpec` —
and advance the last point.  With no preview buffer, `cv2.line(None, ...)`
raises out of the handler after the canvas segment was already added. -/
def DrawingTools.draw (s : EditorState) (eventX eventY : ℤ) :
    Option (EditorState × LineSpec) :=
  let s := { s with draw_ids := s.draw_ids ++ [(s.x, s.y, eventX, eventY)] }
  match s.filtered_image with
  | none => none
  | some _ =>
    let spec : LineSpec :=
      { p1 := (pyInt ((s.x : ℚ) * s.ratio), pyInt ((s.y : ℚ) * s.ratio))
        p2 := (pyInt ((eventX : ℚ) * s.ratio), pyInt ((eventY : ℚ) * s.ratio))
        color := (0, 0, 255)
        thickness := pyInt (s.ratio * 2) }
    some ({ s with x := eventX, y := eventY }, spec)

/-- `TextTools.start_text_placement` (src/text_tools.py lines 189-228):
take the entry text when non-empty, convert the selected color to BGR,
map the click to image space, reset the preview to a copy of the committed
image and issue a `cv2.putText` call on it — whose arguments the embedding
returns as a `TextSpec`.  With no image loaded, `edited_image.copy()`
raises out of the handler. -/
def TextTools.start_text_placement (s : EditorState) (eventX eventY : ℤ)
    (entryText : String) : Option (EditorState × TextSpec) :=
  let s := if entryText ≠ "" then { s with text_extracted := entryText } else s
  let rgb := s.color_code.1
  let start_x := pyInt ((eventX : ℚ) * s.ratio)
  let start_y := pyInt ((eventY : ℚ) * s.ratio)
  match s.edited_image with
  | none => none
  | some e =>
    let spec : TextSpec :=
      { text := s.text_extracted
        org := (start_x, start_y)
        fontScale := 2
        color := (rgb.2.2, rgb.2.1, rgb.1)
        thickness := 5 }
    let s := { s with filtered_image := some e }
    some (displayImage s e, spec)

/-! ### Shared frame lemmas -/

/-- `display_image` only recomputes `ratio` and the offsets: every other
field of the editor state is untouched. -/
theorem displayImage_frame (s : EditorState) (img : Image) :
    (displayImage s img).original_image = s.original_image ∧
    (displayImage s img).edited_image = s.edited_image ∧
    (displayImage s img).filtered_image = s.filtered_image ∧
    (displayImage s img).history = s.history ∧
    (displayImage s img).history_position = s.history_position ∧
    (displayImage s img).active_filters = s.active_filters ∧
    (displayImage s img).color_code = s.color_code := by
  unfold displayImage
  split
  · exact ⟨rfl, rfl, rfl, rfl, rfl, rfl, rfl⟩
  split
  · exact ⟨rfl, rfl, rfl, rfl, rfl, rfl, rfl⟩
  · exact ⟨rfl, rfl, rfl, rfl, rfl, rfl, rfl⟩

/-- `_reset_filter_states` only rewrites the filter-toggle map. -/
theorem resetFilterStates_frame (s : EditorState) :
    (resetFilterStates s).original_image = s.original_image ∧
    (resetFilterStates s).edited_image = s.edited_image ∧
    (resetFilterStates s).filtered_image = s.filtered_image ∧
    (resetFilterStates s).history = s.history ∧
    (resetFilterStates s).history_position = s.history_position :=
  ⟨rfl, rfl, rfl, rfl, rfl⟩

/-- `_reset_tool_states` only rewrites the transient tool fields. -/
theorem resetToolStates_proj (u : EditorState) :
    (resetToolStates u).edited_image = u.edited_image ∧
    (resetToolStates u).original_image = u.original_image ∧
    (resetToolStates u).filtered_image = u.filtered_image ∧
    (resetToolStates u).history = u.history ∧
    (resetToolStates u).history_position = u.history_position :=
  ⟨rfl, rfl, rfl, rfl, rfl⟩

/-- `_reset_all_states` only rewrites tool, filter, text and color state. -/
theorem resetAllStates_proj (u : EditorState) :
    (resetAllStates u).edited_image = u.edited_image ∧
    (resetAllStates u).original_image = u.original_image ∧
    (resetAllStates u).filtered_image = u.filtered_image ∧
    (resetAllStates u).history = u.history ∧
    (resetAllStates u).history_position = u.history_position :=
  ⟨rfl, rfl, rfl, rfl, rfl⟩

/-- `clear_history` empties the history fields and touches nothing else. -/
theorem clear_history_proj (u : EditorState) :
    (clear_history u).history = [] ∧
    (clear_history u).history_position = -1 ∧
    (clear_history u).edited_image = u.edited_image ∧
    (clear_history u).original_image = u.original_image ∧
    (clear_history u).filtered_image = u.filtered_image :=
  ⟨rfl, rfl, rfl, rfl, rfl⟩

/-- `_add_to_history` only rewrites the history fields. -/
theorem addToHistory_frame (s : EditorState) (f : Image) :
    (addToHistory s f).original_image = s.original_image ∧
    (addToHistory s f).edited_image = s.edited_image ∧
    (addToHistory s f).filtered_image = s.filtered_image :=
  ⟨rfl, rfl, rfl⟩

/-- The history fields written by `_add_to_history` are exactly
`addToHistoryCore` of the fields it read. -/
theorem addToHistory_fields (s : EditorState) (f : Image) :
    (addToHistory s f).history = (addToHistoryCore s.history s.history_position f).1 ∧
    (addToHistory s f).history_position =
      (addToHistoryCore s.history s.history_position f).2 :=
  ⟨rfl, rfl⟩

/-! ### Claim C3: viewport display dimensions -/

/-- The claim of C3 fails on the code: a 1024-wide, 1000-high source
overflows the display budget, takes the landscape branch and gets display
height `int(800 * 1000/1024) = 781`, which exceeds
`maxH - padding = 600`. -/
theorem calculateDisplayDimensions_height_budget_violated :
    0 < 1024 ∧ 0 < 1000 ∧
    calculateDisplayDimensions 1024 1000 = (800, 781) ∧
    ¬ (calculateDisplayDimensions 1024 1000).2 ≤ default_height - padding := by
  have h : calculateDisplayDimensions 1024 1000 = (800, 781) := by
    norm_num [calculateDisplayDimensions, pyInt, default_width, default_height, padding]
    decide
  refine ⟨by norm_num, by norm_num, h, ?_⟩
  rw [h]
  norm_num [default_height, padding]

/-- C3, amended: for every positive source size the display width never
exceeds `maxW - padding`; the display height never exceeds
`maxH - padding` whenever the source is portrait or square
(`height ≥ width`); and a source that already fits the budget is displayed
at its own size.  (A landscape source taller than the height budget can
exceed it, per the counterexample.) -/
theorem calculateDisplayDimensions_bounds (width height : Nat)
    (hw : 0 < width) (hh : 0 < height) :
    (calculateDisplayDimensions width height).1 ≤ default_width - padding ∧
    (width ≤ height →
      (calculateDisplayDimensions width height).2 ≤ default_height - padding) ∧
    (width ≤ default_width - padding → height ≤ default_height - padding →
      calculateDisplayDimensions width height = (width, height)) := by
  have hwq : (0 : ℚ) < (width : ℚ) := by exact_mod_cast hw
  have hhq : (0 : ℚ) < (height : ℚ) := by exact_mod_cast hh
  unfold calculateDisplayDimensions
  simp only [default_width, default_height, padding]
  split
  · rename_i hover
    split
    · -- landscape branch: new width is exactly the width budget
      rename_i hratio
      refine ⟨le_refl _, ?_, ?_⟩
      · intro hwh
        exfalso
        have : (1 : ℚ) ≤ (height : ℚ) / (width : ℚ) := by
          rw [le_div_iff₀ hwq]
          exact_mod_cast by simpa using hwh
        exact absurd hratio (not_lt.mpr this)
      · intro hw' hh'
        exact absurd hover (by omega)
    · -- portrait branch: new height is exactly the height budget,
      -- and the computed width is at most it
      rename_i hratio
      have hle : (width : ℚ) / (height : ℚ) ≤ 1 := by
        rw [div_le_one hhq]
        have : (1 : ℚ) ≤ (height : ℚ) / (width : ℚ) := not_lt.mp hratio
        rw [le_div_iff₀ hwq] at this
        simpa using this
      have hq0 : (0 : ℚ) ≤ (600 : ℚ) * ((width : ℚ) / (height : ℚ)) := by positivity
      have hq6 : (600 : ℚ) * ((width : ℚ) / (height : ℚ)) ≤ 600 := by nlinarith
      have hfloor : pyInt ((600 : ℚ) * ((width : ℚ) / (height : ℚ))) ≤ 600 := by
        rw [pyInt, if_pos hq0]
        have := Int.floor_le_floor (α := ℚ) hq6
        simpa using this
      refine ⟨?_, fun _ => le_refl _, ?_⟩
      · have : (pyInt ((600 : ℚ) * ((width : ℚ) / (height : ℚ)))).toNat ≤ 600 := by
          omega
        simpa using this.trans (by norm_num)
      · intro hw' hh'
        exact absurd hover (by omega)
  · rename_i hfits
    refine ⟨?_, ?_, fun _ _ => rfl⟩ <;> omega

/-! ### Concrete states used as test inputs -/

/-- A 2×2 test image. -/
def imgA : Image :=
  { height := 2, width := 2
    pixels := [[(1, 1, 1), (2, 2, 2)], [(3, 3, 3), (4, 4, 4)]] }

/-- A 3×3 test image. -/
def imgB : Image :=
  { height := 3, width := 3
    pixels := List.replicate 3 (List.replicate 3 (9, 9, 9)) }

/-- A 20×20 test image. -/
def img20 : Image :=
  { height := 20, width := 20
    pixels := List.replicate 20 (List.replicate 20 (0, 0, 0)) }

/-- A freshly initialised editor state (src/image_editor.py lines 74-112)
except for the viewport ratio, set to 5 (a large image scaled down 5×). -/
def baseState : EditorState :=
  { original_image := none
    edited_image := none
    filtered_image := none
    ratio := 5
    x_offset := 0
    y_offset := 0
    x := 0
    y := 0
    draw_ids := []
    text_extracted := "Sample Text"
    color_code := ((255, 0, 0), "#ff0000")
    rectangle_id := 0
    crop_start_x := 0
    crop_start_y := 0
    crop_end_x := 0
    crop_end_y := 0
    active_filters := [("negative", false), ("bw", true)]
    history := []
    history_position := -1 }

/-- Witness for the amended C3 at an oversized 700×2000 portrait source:
the display size is 210×600, within both budget axes, and a 500×400 source
that fits is displayed unscaled. -/
theorem calculateDisplayDimensions_bounds_witness :
    ((0 < 700 ∧ 0 < 2000) ∧
     ((calculateDisplayDimensions 700 2000).1 ≤ default_width - padding ∧
      (700 ≤ 2000 →
        (calculateDisplayDimensions 700 2000).2 ≤ default_height - padding) ∧
      (700 ≤ default_width - padding → 2000 ≤ default_height - padding →
        calculateDisplayDimensions 700 2000 = (700, 2000)))) ∧
    ((0 < 500 ∧ 0 < 400) ∧
     ((calculateDisplayDimensions 500 400).1 ≤ default_width - padding ∧
      (500 ≤ 400 →
        (calculateDisplayDimensions 500 400).2 ≤ default_height - padding) ∧
      (500 ≤ default_width - padding → 400 ≤ default_height - padding →
        calculateDisplayDimensions 500 400 = (500, 400)))) :=
  ⟨⟨⟨by norm_num, by norm_num⟩,
    calculateDisplayDimensions_bounds 700 2000 (by norm_num) (by norm_num)⟩,
   ⟨⟨by norm_num, by norm_num⟩,
    calculateDisplayDimensions_bounds 500 400 (by norm_num) (by norm_num)⟩⟩

/-! ### Claim C4: coordinate round trip -/

/-- Python truncation is within one of its argument, on both sides. -/
theorem pyInt_bounds (q : ℚ) : q - 1 < (pyInt q : ℚ) ∧ (pyInt q : ℚ) < q + 1 := by
  unfold pyInt
  split
  · constructor
    · exact_mod_cast Int.sub_one_lt_floor q
    · calc ((⌊q⌋ : ℤ) : ℚ) ≤ q := Int.floor_le q
        _ < q + 1 := by linarith
  · constructor
    · calc q - 1 < q := by linarith
        _ ≤ ((⌈q⌉ : ℤ) : ℚ) := Int.le_ceil q
    · exact_mod_cast Int.ceil_lt_add_one q

/-- The claim of C4 fails on the code: with scale 5 and zero offsets, image
coordinate 4 maps to canvas coordinate `int(4/5) = 0` and back to
`int(0*5) = 0`, an error of 4 > 1 on each axis. -/
theorem coordinate_roundtrip_error_exceeds_one :
    (0 : ℚ) < baseState.ratio ∧
    get_canvas_coordinates baseState 4 4 = (0, 0) ∧
    get_image_coordinates baseState 0 0 = (0, 0) ∧
    ¬ |(0 : ℤ) - 4| ≤ 1 := by
  refine ⟨by norm_num [baseState], ?_, ?_, by decide⟩
  · norm_num [get_canvas_coordinates, baseState, pyInt]
  · norm_num [get_image_coordinates, baseState, pyInt]

/-- One axis of the round trip: converting an image coordinate `z` to
canvas space and back yields `int(int(z / r) * r)` (the offsets cancel),
which lies strictly within `r + 1` of `z`. -/
theorem coordinate_roundtrip_axis (r : ℚ) (hr : 0 < r) (off z : ℤ) :
    |((pyInt ((((pyInt ((z : ℚ) / r) + off : ℤ) : ℚ) - (off : ℚ)) * r) - z : ℤ) : ℚ)|
      < r + 1 := by
  have hsimp : (((pyInt ((z : ℚ) / r) + off : ℤ) : ℚ) - (off : ℚ)) * r
      = ((pyInt ((z : ℚ) / r) : ℤ) : ℚ) * r := by
    push_cast
    ring
  rw [hsimp]
  obtain ⟨ht1, ht2⟩ := pyInt_bounds ((z : ℚ) / r)
  have hz : ((z : ℚ) / r) * r = (z : ℚ) := div_mul_cancel₀ _ (ne_of_gt hr)
  have hm1 : ((pyInt ((z : ℚ) / r) : ℤ) : ℚ) * r > (z : ℚ) - r := by
    have := mul_lt_mul_of_pos_right ht1 hr
    rw [sub_mul, hz, one_mul] at this
    linarith
  have hm2 : ((pyInt ((z : ℚ) / r) : ℤ) : ℚ) * r < (z : ℚ) + r := by
    have := mul_lt_mul_of_pos_right ht2 hr
    rw [add_mul, hz, one_mul] at this
    linarith
  obtain ⟨hc1, hc2⟩ := pyInt_bounds (((pyInt ((z : ℚ) / r) : ℤ) : ℚ) * r)
  rw [abs_lt]
  constructor <;> push_cast <;> linarith

/-- C4, amended: composing `get_canvas_coordinates` with
`get_image_coordinates` returns each coordinate within `scale + 1`
(strictly), not within 1: the two `int()` truncations each lose up to one
display pixel, and a display pixel is `scale` image pixels. -/
theorem coordinate_roundtrip_within_scale (s : EditorState)
    (hr : 0 < s.ratio) (x y : ℤ) :
    |(((get_image_coordinates s
          (get_canvas_coordinates s x y).1
          (get_canvas_coordinates s x y).2).1 - x : ℤ) : ℚ)| < s.ratio + 1 ∧
    |(((get_image_coordinates s
          (get_canvas_coordinates s x y).1
          (get_canvas_coordinates s x y).2).2 - y : ℤ) : ℚ)| < s.ratio + 1 := by
  simp only [get_image_coordinates, get_canvas_coordinates]
  exact ⟨coordinate_roundtrip_axis s.ratio hr s.x_offset x,
         coordinate_roundtrip_axis s.ratio hr s.y_offset y⟩

/-- Witness: the amended round-trip bound at scale 5, image point (4, 4):
the round trip returns (0, 0), and the error 4 is below `5 + 1`. -/
theorem coordinate_roundtrip_within_scale_witness :
    (0 : ℚ) < baseState.ratio ∧
    (|(((get_image_coordinates baseState
          (get_canvas_coordinates baseState 4 4).1
          (get_canvas_coordinates baseState 4 4).2).1 - 4 : ℤ) : ℚ)| < baseState.ratio + 1 ∧
     |(((get_image_coordinates baseState
          (get_canvas_coordinates baseState 4 4).1
          (get_canvas_coordinates baseState 4 4).2).2 - 4 : ℤ) : ℚ)| < baseState.ratio + 1) :=
  ⟨by norm_num [baseState],
   coordinate_roundtrip_within_scale baseState (by norm_num [baseState]) 4 4⟩

/-! ### Claim C1: tool coordinates vs. the CoordinateMapper mapping -/

/-- An editor state with a loaded image displayed centred: scale 1 and a
50-pixel centring offset on each axis (the offsets computed by
`display_image` for an 800×600 source on the 900×700 default canvas). -/
def offsetState : EditorState :=
  { baseState with
      ratio := 1
      x_offset := 50
      y_offset := 50
      original_image := some imgA
      edited_image := some imgA
      filtered_image := some imgA }

/-- The claim of C1 fails on the code: on a viewport with scale 1 and
offsets (50, 50), a pointer event at canvas point (100, 100) makes the
draw handler pass image point (100, 100) to `cv2.line` and the text
handler pass image point (100, 100) to `cv2.putText` — both compute
`int(canvas * scale)` without subtracting the offsets — while the
CoordinateMapper mapping `(canvas - offset) * scale` yields (50, 50). -/
theorem draw_and_text_ignore_viewport_offset :
    (DrawingTools.draw offsetState 100 100).map (fun p => p.2.p2)
      = some (100, 100) ∧
    (TextTools.start_text_placement offsetState 100 100 "hi").map (fun p => p.2.org)
      = some (100, 100) ∧
    get_image_coordinates offsetState 100 100 = (50, 50) ∧
    ((100, 100) : ℤ × ℤ) ≠ (50, 50) := by
  refine ⟨?_, ?_, ?_, by decide⟩
  · norm_num [DrawingTools.draw, offsetState, baseState, pyInt]
  · simp +decide only [TextTools.start_text_placement, offsetState, baseState]
    norm_num [pyInt, displayImage]
  · norm_num [get_image_coordinates, offsetState, baseState, pyInt]

/-! ### Claim C2: history after an image load -/

/-- An editor state that already holds one history snapshot at cursor 0
(the state immediately after one successful Apply). -/
def historyOneState : EditorState :=
  { baseState with
      original_image := some imgA
      edited_image := some imgA
      filtered_image := some imgA
      history := [imgA]
      history_position := 0 }

/-- The claim of C2 fails on the code: `_load_image` sets the three image
buffers and redisplays but never touches the history, so loading a new
image over a session with one snapshot leaves `history = [imgA]` and
`history_position = 0`, not an empty stack at position −1. -/
theorem loadImage_does_not_clear_history :
    (loadImage historyOneState imgB).history = [imgA] ∧
    (loadImage historyOneState imgB).history_position = 0 ∧
    ¬ ((loadImage historyOneState imgB).history = [] ∧
       (loadImage historyOneState imgB).history_position = -1) := by
  have hh : (loadImage historyOneState imgB).history = [imgA] :=
    (displayImage_frame _ imgB).2.2.2.1
  have hp : (loadImage historyOneState imgB).history_position = 0 :=
    (displayImage_frame _ imgB).2.2.2.2.1
  refine ⟨hh, hp, ?_⟩
  intro hcon
  rw [hh] at hcon
  exact List.cons_ne_nil _ _ hcon.1

/-! ### Claim C9: draw color -/

/-- An editor state in a draw session whose selected color is green
(RGB (0, 255, 0), hex `#00ff00`), as set by the color picker. -/
def greenState : EditorState :=
  { offsetState with color_code := ((0, 255, 0), "#00ff00") }

/-- The claim of C9 fails on the code: with green selected,
`DrawingTools.draw` still passes the hard-coded BGR constant (0, 0, 255)
(pure red) to `cv2.line`, which matches the selected green neither as an
RGB triple nor after the RGB→BGR reversal that `convert_color_to_bgr`
would perform. -/
theorem draw_color_is_hardcoded_red :
    greenState.color_code.1 = (0, 255, 0) ∧
    (DrawingTools.draw greenState 5 5).map (fun p => p.2.color)
      = some (0, 0, 255) ∧
    ((0, 0, 255) : Pixel) ≠ (0, 255, 0) := by
  refine ⟨rfl, ?_, by decide⟩
  norm_num [DrawingTools.draw, greenState, offsetState, baseState, pyInt]

/-! ### Claim C5: history shape after an apply -/

/-- Reading a concatenation `l ++ [a]` at any index equal to `l.length`
yields the appended element. -/
theorem getElem?_concat_of_length_eq {α : Type} (l : List α) (a : α) (i : ℕ)
    (h : l.length = i) : (l ++ [a])[i]? = some a := by
  subst h
  exact List.getElem?_concat_length _ _

/-- The history-shape lemma for `_add_to_history`: starting from any history
satisfying the stack invariant (`-1 ≤ position ≤ length − 1`,
`length ≤ capacity`), after one push the length is at most the capacity,
the cursor sits at `length − 1`, the entry under the cursor is the pushed
snapshot, and a push onto a full stack whose cursor is at the top drops the
oldest entry. -/
theorem addToHistoryCore_spec (hist : List Image) (pos : ℤ) (f : Image)
    (h1 : -1 ≤ pos) (h2 : pos ≤ (hist.length : ℤ) - 1)
    (h3 : hist.length ≤ max_history) :
    (addToHistoryCore hist pos f).1.length ≤ max_history ∧
    (addToHistoryCore hist pos f).2 = ((addToHistoryCore hist pos f).1.length : ℤ) - 1 ∧
    (addToHistoryCore hist pos f).1[(addToHistoryCore hist pos f).2.toNat]? = some f ∧
    (hist.length = max_history → pos = (hist.length : ℤ) - 1 →
      (addToHistoryCore hist pos f).1 = hist.drop 1 ++ [f]) := by
  have hmax : max_history = 10 := rfl
  simp only [addToHistoryCore, pySliceTo]
  by_cases hc : pos < (hist.length : ℤ) - 1
  · -- a redo branch is truncated first; capacity cannot be exceeded
    have hpos0 : 0 ≤ pos + 1 := by omega
    have hlen1 : (hist.take (pos + 1).toNat).length = (pos + 1).toNat := by
      rw [List.length_take]
      omega
    have hlen2 : ((hist.take (pos + 1).toNat) ++ [f]).length = (pos + 1).toNat + 1 := by
      simp [hlen1]
    rw [if_pos hc, if_pos hpos0]
    have hnocap : ¬ ((((hist.take (pos + 1).toNat) ++ [f]).length : ℤ) > (max_history : ℤ)) := by
      rw [hlen2]
      push_cast
      omega
    rw [if_neg hnocap]
    dsimp only
    refine ⟨?_, ?_, ?_, ?_⟩
    · rw [hlen2]
      omega
    · rw [hlen2]
      push_cast
      omega
    · exact getElem?_concat_of_length_eq _ _ _ hlen1
    · intro hfull htop
      omega
  · -- the cursor is at the top: plain append, evicting when full
    have htop : pos = (hist.length : ℤ) - 1 := by omega
    rw [if_neg hc]
    by_cases hcap : (((hist ++ [f]).length : ℤ) > (max_history : ℤ))
    · -- full stack: drop the oldest entry
      have hfull : hist.length = 10 := by
        simp only [List.length_append, List.length_singleton] at hcap
        push_cast at hcap
        omega
      rw [if_pos hcap]
      dsimp only
      have hdrop : (hist ++ [f]).drop 1 = hist.drop 1 ++ [f] :=
        List.drop_append_of_le_length (by omega)
      have hlen3 : ((hist ++ [f]).drop 1).length = 10 := by
        simp [hfull]
      refine ⟨?_, ?_, ?_, ?_⟩
      · rw [hlen3]
        omega
      · rw [hlen3]
        omega
      · rw [hdrop]
        refine getElem?_concat_of_length_eq _ _ _ ?_
        simp only [List.length_drop]
        omega
      · intro _ _
        exact hdrop
    · -- below capacity: plain append
      rw [if_neg hcap]
      dsimp only
      have hlen4 : (hist ++ [f]).length = hist.length + 1 := by
        simp
      simp only [List.length_append, List.length_singleton] at hcap
      push_cast at hcap
      refine ⟨?_, ?_, ?_, ?_⟩
      · rw [hlen4]
        omega
      · rw [hlen4]
        push_cast
        omega
      · refine getElem?_concat_of_length_eq _ _ _ ?_
        omega
      · intro hfull _
        omega

/-- The history fields of `apply_changes`, when a preview exists, are
`addToHistoryCore` of the pre-state's history fields: the interposed
display refresh and filter reset do not touch them. -/
theorem apply_changes_history_eq (s : EditorState) (f : Image)
    (hf : s.filtered_image = some f) :
    (apply_changes s).history = (addToHistoryCore s.history s.history_position f).1 ∧
    (apply_changes s).history_position =
      (addToHistoryCore s.history s.history_position f).2 := by
  have key : apply_changes s
      = resetFilterStates (addToHistory (displayImage { s with edited_image := some f } f) f) := by
    unfold apply_changes
    split
    · rename_i heq
      rw [heq] at hf
      exact Option.noConfusion hf
    · rename_i f' heq
      rw [heq] at hf
      injection hf with hf'
      subst hf'
      rfl
  rw [key]
  have e1 : (displayImage { s with edited_image := some f } f).history = s.history :=
    (displayImage_frame _ f).2.2.2.1
  have e2 : (displayImage { s with edited_image := some f } f).history_position
      = s.history_position :=
    (displayImage_frame _ f).2.2.2.2.1
  constructor
  · show (addToHistoryCore (displayImage { s with edited_image := some f } f).history
      (displayImage { s with edited_image := some f } f).history_position f).1 = _
    rw [e1, e2]
  · show (addToHistoryCore (displayImage { s with edited_image := some f } f).history
      (displayImage { s with edited_image := some f } f).history_position f).2 = _
    rw [e1, e2]

/-- C5, as claimed: from any state satisfying the history-stack invariant
(`-1 ≤ position ≤ length − 1`, `length ≤ 10` — established for every
reachable state by the preservation lemmas below), an `apply_changes` that
records a snapshot leaves at most 10 snapshots with the cursor at
`length − 1` pointing at the snapshot just pushed, and evicts the oldest
snapshot when the stack was full with the cursor at the top. -/
theorem apply_changes_history_invariant (s : EditorState) (f : Image)
    (hf : s.filtered_image = some f)
    (h1 : -1 ≤ s.history_position)
    (h2 : s.history_position ≤ (s.history.length : ℤ) - 1)
    (h3 : s.history.length ≤ max_history) :
    (apply_changes s).history.length ≤ max_history ∧
    (apply_changes s).history_position = ((apply_changes s).history.length : ℤ) - 1 ∧
    (apply_changes s).history[(apply_changes s).history_position.toNat]? = some f ∧
    (s.history.length = max_history → s.history_position = (s.history.length : ℤ) - 1 →
      (apply_changes s).history = s.history.drop 1 ++ [f]) := by
  obtain ⟨eh, ep⟩ := apply_changes_history_eq s f hf
  obtain ⟨c1, c2, c3, c4⟩ := addToHistoryCore_spec s.history s.history_position f h1 h2 h3
  rw [eh, ep]
  exact ⟨c1, c2, c3, c4⟩

/-- An editor state whose history is full (10 snapshots) with the cursor at
the top, and with a pending preview. -/
def fullTenState : EditorState :=
  { baseState with
      original_image := some img20
      edited_image := some img20
      filtered_image := some imgA
      history := List.replicate 10 img20
      history_position := 9 }

/-- Witness for C5 at a full stack: the eleventh push keeps the length at
10, moves the cursor to 9 = length − 1, stores the new snapshot there and
evicts the oldest entry. -/
theorem apply_changes_history_invariant_witness :
    (fullTenState.filtered_image = some imgA ∧
     -1 ≤ fullTenState.history_position ∧
     fullTenState.history_position ≤ (fullTenState.history.length : ℤ) - 1 ∧
     fullTenState.history.length ≤ max_history) ∧
    ((apply_changes fullTenState).history.length ≤ max_history ∧
     (apply_changes fullTenState).history_position =
       ((apply_changes fullTenState).history.length : ℤ) - 1 ∧
     (apply_changes fullTenState).history[(apply_changes
       fullTenState).history_position.toNat]? = some imgA ∧
     (fullTenState.history.length = max_history →
      fullTenState.history_position = (fullTenState.history.length : ℤ) - 1 →
      (apply_changes fullTenState).history = fullTenState.history.drop 1 ++ [imgA])) :=
  ⟨⟨rfl, by decide, by decide, by decide⟩,
   apply_changes_history_invariant fullTenState imgA rfl
     (by decide) (by decide) (by decide)⟩

/-- The history-stack invariant of §3 of the specification. -/
def historyInv (s : EditorState) : Prop :=
  -1 ≤ s.history_position ∧
  s.history_position ≤ (s.history.length : ℤ) - 1 ∧
  s.history.length ≤ max_history

/-- `apply_changes` preserves the history-stack invariant. -/
theorem apply_changes_preserves_historyInv (s : EditorState)
    (h : historyInv s) : historyInv (apply_changes s) := by
  obtain ⟨h1, h2, h3⟩ := h
  cases hf : s.filtered_image with
  | none =>
    unfold apply_changes
    rw [hf]
    exact ⟨h1, h2, h3⟩
  | some f =>
    obtain ⟨eh, ep⟩ := apply_changes_history_eq s f hf
    obtain ⟨c1, c2, _, _⟩ := addToHistoryCore_spec s.history s.history_position f h1 h2 h3
    refine ⟨?_, ?_, ?_⟩
    · rw [ep, c2]
      omega
    · rw [ep, eh, c2]
    · rw [eh]
      exact c1

/-- `undo` preserves the history-stack invariant. -/
theorem undo_preserves_historyInv (s : EditorState)
    (h : historyInv s) : historyInv (undo s) := by
  obtain ⟨h1, h2, h3⟩ := h
  unfold undo
  split
  · rename_i hpos
    dsimp only
    cases hg : s.history.get? (s.history_position - 1).toNat with
    | none => exact ⟨h1, h2, h3⟩
    | some img =>
      have e := displayImage_frame
        { s with
            history_position := s.history_position - 1
            edited_image := some img
            filtered_image := some img } img
      refine ⟨?_, ?_, ?_⟩
      · rw [e.2.2.2.2.1]
        dsimp only
        omega
      · rw [e.2.2.2.2.1, e.2.2.2.1]
        dsimp only
        omega
      · rw [e.2.2.2.1]
        exact h3
  · exact ⟨h1, h2, h3⟩

/-- `redo` preserves the history-stack invariant. -/
theorem redo_preserves_historyInv (s : EditorState)
    (h : historyInv s) : historyInv (redo s) := by
  obtain ⟨h1, h2, h3⟩ := h
  unfold redo
  split
  · rename_i hpos
    dsimp only
    cases hg : s.history.get? (s.history_position + 1).toNat with
    | none => exact ⟨h1, h2, h3⟩
    | some img =>
      have e := displayImage_frame
        { s with
            history_position := s.history_position + 1
            edited_image := some img
            filtered_image := some img } img
      refine ⟨?_, ?_, ?_⟩
      · rw [e.2.2.2.2.1]
        dsimp only
        omega
      · rw [e.2.2.2.2.1, e.2.2.2.1]
        dsimp only
        omega
      · rw [e.2.2.2.1]
        exact h3
  · exact ⟨h1, h2, h3⟩

/-- `loadImage`, `revert_all`, `cancel_changes` and `clear_history`
preserve the history-stack invariant. -/
theorem other_ops_preserve_historyInv (s : EditorState) (img : Image)
    (h : historyInv s) :
    historyInv (loadImage s img) ∧ historyInv (revert_all s) ∧
    historyInv (cancel_changes s) ∧ historyInv (clear_history s) := by
  obtain ⟨h1, h2, h3⟩ := h
  have hload : historyInv (loadImage s img) := by
    unfold loadImage
    have e := displayImage_frame
      { s with
          original_image := some img
          edited_image := some img
          filtered_image := some img } img
    exact ⟨by rw [e.2.2.2.2.1]; exact h1,
           by rw [e.2.2.2.2.1, e.2.2.2.1]; exact h2,
           by rw [e.2.2.2.1]; exact h3⟩
  have hrev : historyInv (revert_all s) := by
    unfold revert_all
    cases s.original_image with
    | none => exact ⟨h1, h2, h3⟩
    | some o =>
      refine ⟨?_, ?_, ?_⟩ <;>
        simp [resetAllStates, resetFilterStates, resetToolStates, clear_history,
          (displayImage_frame _ o).2.2.2.1, (displayImage_frame _ o).2.2.2.2.1,
          max_history]
  have hcan : historyInv (cancel_changes s) := by
    unfold cancel_changes
    cases s.edited_image with
    | none => exact hrev
    | some e =>
      have efr := displayImage_frame
        { s with edited_image := some e, filtered_image := some e } e
      refine ⟨?_, ?_, ?_⟩
      · show -1 ≤ (displayImage
          { s with edited_image := some e, filtered_image := some e } e).history_position
        rw [efr.2.2.2.2.1]
        exact h1
      · show (displayImage
            { s with edited_image := some e, filtered_image := some e } e).history_position
          ≤ ((displayImage
            { s with edited_image := some e, filtered_image := some e } e).history.length : ℤ) - 1
        rw [efr.2.2.2.2.1, efr.2.2.2.1]
        exact h2
      · show (displayImage
            { s with edited_image := some e, filtered_image := some e } e).history.length
          ≤ max_history
        rw [efr.2.2.2.1]
        exact h3
  refine ⟨hload, hrev, hcan, ?_, ?_, ?_⟩ <;> simp [clear_history, max_history]

/-! ### Claim C6: revert after any number of applies -/

/-- `apply_changes` never touches the original image. -/
theorem apply_changes_preserves_original (s : EditorState) :
    (apply_changes s).original_image = s.original_image := by
  unfold apply_changes
  split
  · rfl
  · rename_i f heq
    show (displayImage { s with edited_image := some f } f).original_image
      = s.original_image
    rw [(displayImage_frame _ f).1]

/-- `revert_all` on a state with an original image: both buffers are
restored from the original and the history is emptied with the cursor
at −1. -/
theorem revert_all_spec (s : EditorState) (o : Image)
    (h : s.original_image = some o) :
    (revert_all s).edited_image = some o ∧
    (revert_all s).filtered_image = some o ∧
    (revert_all s).original_image = some o ∧
    (revert_all s).history = [] ∧
    (revert_all s).history_position = -1 := by
  unfold revert_all
  split
  · rename_i heq
    rw [heq] at h
    exact Option.noConfusion h
  · rename_i o' heq
    rw [heq] at h
    injection h with h'
    subst h'
    have efr := displayImage_frame
      { s with edited_image := some o', filtered_image := some o' } o'
    refine ⟨?_, ?_, ?_, ?_, ?_⟩
    · rw [(resetAllStates_proj _).1, (clear_history_proj _).2.2.1, efr.2.1]
    · rw [(resetAllStates_proj _).2.2.1, (clear_history_proj _).2.2.2.2, efr.2.2.1]
    · rw [(resetAllStates_proj _).2.1, (clear_history_proj _).2.2.2.1, efr.1]
      exact heq
    · rw [(resetAllStates_proj _).2.2.2.1, (clear_history_proj _).1]
    · rw [(resetAllStates_proj _).2.2.2.2, (clear_history_proj _).2.1]

/-- C6: if an image is loaded, then after any number of `apply_changes`
calls a single `revert_all` makes the committed buffer equal to the
original image and leaves the history with zero stored snapshots. -/
theorem revert_restores_original_after_applies (s : EditorState) (o : Image)
    (n : ℕ) (h : s.original_image = some o) :
    (revert_all (apply_changes^[n] s)).edited_image = some o ∧
    (get_history_info (revert_all (apply_changes^[n] s))).total_states = 0 := by
  have ho : (apply_changes^[n] s).original_image = some o := by
    induction n with
    | zero => simpa using h
    | succ n ih =>
      rw [Function.iterate_succ_apply', apply_changes_preserves_original]
      exact ih
  obtain ⟨he, _, _, hh, _⟩ := revert_all_spec _ o ho
  refine ⟨he, ?_⟩
  show (revert_all (apply_changes^[n] s)).history.length = 0
  rw [hh]
  rfl

/-- A loaded editor state with a pending preview differing from the
original. -/
def revertState : EditorState :=
  { baseState with
      original_image := some imgA
      edited_image := some imgB
      filtered_image := some imgB }

/-- Witness for C6: two applies then one revert restore the original
2×2 image and empty the history. -/
theorem revert_restores_original_after_applies_witness :
    revertState.original_image = some imgA ∧
    ((revert_all (apply_changes^[2] revertState)).edited_image = some imgA ∧
     (get_history_info (revert_all (apply_changes^[2] revertState))).total_states = 0) :=
  ⟨rfl, revert_restores_original_after_applies revertState imgA 2 rfl⟩

/-! ### Claim C7: cancel is a preview-only reset -/

/-- C7: `cancel_changes` never changes the committed buffer or the
original; its only effect on the image buffers is to reset the preview to
a copy of the committed image (a no-op on the buffers when nothing is
loaded — reachable states with no committed image have no original
either, which is the stated hypothesis). -/
theorem cancel_changes_frame (s : EditorState)
    (hinv : s.edited_image = none → s.original_image = none) :
    (cancel_changes s).edited_image = s.edited_image ∧
    (cancel_changes s).original_image = s.original_image ∧
    (cancel_changes s).filtered_image =
      (match s.edited_image with
       | some e => some e
       | none => s.filtered_image) := by
  cases he : s.edited_image with
  | none =>
    have ho := hinv he
    have hcan : cancel_changes s = s := by
      unfold cancel_changes revert_all
      rw [he, ho]
    rw [hcan, he]
    exact ⟨rfl, rfl, rfl⟩
  | some e =>
    have hcan : cancel_changes s
        = resetToolStates (displayImage
            { s with edited_image := some e, filtered_image := some e } e) := by
      unfold cancel_changes
      rw [he]
    rw [hcan]
    have efr := displayImage_frame
      { s with edited_image := some e, filtered_image := some e } e
    refine ⟨?_, ?_, ?_⟩
    · rw [(resetToolStates_proj _).1, efr.2.1]
    · rw [(resetToolStates_proj _).2.1, efr.1]
    · rw [(resetToolStates_proj _).2.2.1, efr.2.2.1]

/-- Witness for C7 on a loaded state: cancel keeps the committed 2×2 image
and resets the preview to it. -/
theorem cancel_changes_frame_witness :
    (offsetState.edited_image = none → offsetState.original_image = none) ∧
    ((cancel_changes offsetState).edited_image = offsetState.edited_image ∧
     (cancel_changes offsetState).original_image = offsetState.original_image ∧
     (cancel_changes offsetState).filtered_image =
       (match offsetState.edited_image with
        | some e => some e
        | none => offsetState.filtered_image)) :=
  ⟨by decide, cancel_changes_frame offsetState (by decide)⟩

/-! ### Claim C8: crop rejects small selections -/

/-- C8: a crop gesture whose canvas selection is narrower than 10 pixels in
either axis is rejected by `end_crop`: the preview and committed buffers
are untouched (only the transient crop coordinates are reset). -/
theorem end_crop_rejects_small_selection (s : EditorState)
    (h : |s.crop_end_x - s.crop_start_x| < 10 ∨ |s.crop_end_y - s.crop_start_y| < 10) :
    (end_crop s).filtered_image = s.filtered_image ∧
    (end_crop s).edited_image = s.edited_image := by
  have hv : validate_crop_size s = false := by
    unfold validate_crop_size MIN_CROP_SIZE
    rcases h with h | h
    · have hx : ¬ (|s.crop_end_x - s.crop_start_x| ≥ 10) := by omega
      simp [hx]
    · have hy : ¬ (|s.crop_end_y - s.crop_start_y| ≥ 10) := by omega
      simp [hy]
  unfold end_crop
  rw [hv, if_pos (by decide : ¬ (false = true))]
  exact ⟨rfl, rfl⟩

/-- An in-progress crop selection only 5 canvas pixels wide. -/
def smallSelState : EditorState :=
  { offsetState with
      crop_start_x := 0
      crop_start_y := 0
      crop_end_x := 5
      crop_end_y := 20 }

/-- Witness for C8: a 5×20 canvas selection is rejected and the preview
buffer keeps its previous content. -/
theorem end_crop_rejects_small_selection_witness :
    (|smallSelState.crop_end_x - smallSelState.crop_start_x| < 10 ∨
     |smallSelState.crop_end_y - smallSelState.crop_start_y| < 10) ∧
    ((end_crop smallSelState).filtered_image = smallSelState.filtered_image ∧
     (end_crop smallSelState).edited_image = smallSelState.edited_image) :=
  ⟨by decide, end_crop_rejects_small_selection smallSelState (by decide)⟩

/-! ### Claim C10: a large enough selection can still crop to nothing -/

/-- A crop session on a 20×20 image displayed at scale 1 with a 50-pixel
horizontal centring offset, whose 20×15 canvas selection lies entirely to
the left of the displayed image. -/
def outsideSelState : EditorState :=
  { baseState with
      ratio := 1
      x_offset := 50
      y_offset := 0
      edited_image := some img20
      filtered_image := some img20
      crop_start_x := 0
      crop_start_y := 0
      crop_end_x := 20
      crop_end_y := 15 }

/-- `_reset_crop_state` only rewrites the transient crop fields. -/
theorem resetCropState_proj (u : EditorState) :
    (resetCropState u).filtered_image = u.filtered_image ∧
    (resetCropState u).edited_image = u.edited_image ∧
    (resetCropState u).original_image = u.original_image :=
  ⟨rfl, rfl, rfl⟩

/-- A crop gesture that passes the minimum-size check but whose mapped
right edge lands at or left of image column 0 replaces the preview with a
zero-width image: the handler clamps both x-bounds to 0 and takes the
empty slice without any error path. -/
theorem end_crop_empty_width (s : EditorState) (img : Image)
    (hv : validate_crop_size s = true) (he : s.edited_image = some img)
    (hx : pyInt ((((max s.crop_start_x s.crop_end_x : ℤ) : ℚ) - (s.x_offset : ℚ))
      * s.ratio) ≤ 0) :
    ∃ c : Image, (end_crop s).filtered_image = some c ∧ c.width = 0 := by
  unfold end_crop
  rw [hv]
  rw [if_neg (by decide : ¬ ¬ (true = true))]
  rw [he]
  dsimp only
  rw [(resetCropState_proj _).1, (displayImage_frame _ _).2.2.1]
  refine ⟨_, rfl, ?_⟩
  simp only [Image.cropRect]
  omega

/-- C10: there is a crop gesture that passes the 10×10 minimum-size check
yet maps-and-clamps to an empty image rectangle, and `end_crop` silently
replaces the preview buffer with a zero-width image. -/
theorem end_crop_accepts_empty_crop :
    ∃ s : EditorState,
      |s.crop_end_x - s.crop_start_x| ≥ 10 ∧
      |s.crop_end_y - s.crop_start_y| ≥ 10 ∧
      validate_crop_size s = true ∧
      ∃ img : Image,
        (end_crop s).filtered_image = some img ∧ img.width = 0 := by
  refine ⟨outsideSelState, by decide, by decide, by decide, ?_⟩
  refine end_crop_empty_width outsideSelState img20 (by decide) rfl ?_
  norm_num [outsideSelState, baseState, pyInt]
  exact Int.ceil_le.mpr (by norm_num)

end ImageEditor
